import Mathlib

/-!
Shallow embedding of the go-backstage HTTP client
(`src/backstage/backstage.go`): client construction (`NewClient`),
request construction (`newRequest`) and request execution (`do`,
embedded as `doExec` since `do` is a Lean keyword).

Modelling conventions:
* Go strings are Lean `String`s.  The byte-level suffix operations of
  the `strings` package coincide with character-level operations for
  the ASCII suffixes used by the source (`"/"`, `"/api"`), so they
  are embedded at the character level.
* A parsed `net/url.URL` is modelled by the two projections the
  source uses: its `Path` component and its `String()` rendering.
  `url.Parse`, `url.JoinPath` and `URL.ResolveReference` belong to
  the Go standard library, not to this repository, so they appear as
  explicit function parameters; theorems quantify over them.
* `json.Encoder.Encode` writes the marshalled value followed by a
  newline; marshalling itself (`json.Marshal`) is a function
  parameter `marshal` returning `none` on serialization failure.
* `json.Decoder.Decode` applied to a response body: an empty body
  (no JSON content) yields `io.EOF` before the destination is
  inspected; otherwise, a body that is not valid JSON for the
  destination type yields a decode error, and a nil destination
  yields `InvalidUnmarshalError` even for a well-formed body.  The
  type-specific reading of a body is the function parameter `parse`.
* `http.Client.Do` is the function parameter `transport`; it either
  produces a response or fails with a transport-level error.  The Go
  contract (nil response exactly on error) is modelled by `Except`.
* The destination pointer `v interface{}` of `do` is an
  `Option V` (`none` = nil pointer); mutation of the pointee is
  modelled by returning the updated destination value.
* A cancellable context is an abstract token attached to the request
  before the transport call, mirroring `req.WithContext(ctx)`.
-/

namespace Backstage

/-- Error kinds surfaced by the client, following the spec's error
taxonomy: `invalidURL` for `url.Parse` failures, `serializationError`
for JSON-encoding failures, `transportError` for `http.Client.Do`
failures, and the decode-side errors of `encoding/json`
(`eofError` models `io.EOF`, `decodeError` a malformed or
type-incompatible body, `invalidUnmarshal` the
`InvalidUnmarshalError` returned for a nil destination). -/
inductive GoError where
  | invalidURL (s : String)
  | serializationError
  | transportError (msg : String)
  | eofError
  | decodeError
  | invalidUnmarshal
deriving Repr, DecidableEq

/-- A parsed `net/url.URL`, modelled by its `Path` component and its
`String()` rendering — the only projections the source reads. -/
structure URL where
  path : String
  render : String
deriving Repr, DecidableEq

/-- The `Client` struct of `backstage.go`, restricted to the fields
the embedded operations read: `BaseURL` (nil-able, hence `Option`),
`UserAgent`, `DefaultNamespace` and the private `token`.  The
`*http.Client` field is the `transport` parameter of `doExec`, and
the `Catalog` sub-service is out of scope per the spec. -/
structure Client where
  baseURL : Option URL
  userAgent : String
  defaultNamespace : String
  token : String
deriving Repr, DecidableEq

/-- Boolean list-prefix test (structural helper for the suffix
operations of the `strings` package). -/
def chPre : List Char → List Char → Bool
  | [], _ => true
  | _, [] => false
  | a :: as, b :: bs => a == b && chPre as bs

/-- Model of `strings.HasSuffix s sfx`: the reversed characters of
`sfx` are a prefix of the reversed characters of `s`. -/
def goHasSuffix (s sfx : String) : Bool :=
  chPre sfx.data.reverse s.data.reverse

/-- Model of `strings.TrimSuffix s sfx`: drop the suffix when
present (`s[:len(s)-len(sfx)]`), otherwise return `s` unchanged. -/
def goTrimSuffix (s sfx : String) : String :=
  if goHasSuffix s sfx then String.mk (s.data.take (s.data.length - sfx.data.length))
  else s

/-- The exported constant `DefaultNamespaceName = "default"`. -/
def DefaultNamespaceName : String := "default"

/-- The private constant `userAgent = "go-backstage"`. -/
def userAgent : String := "go-backstage"

/-- The private constant `contentTypeJSON = "application/json"`. -/
def contentTypeJSON : String := "application/json"

/-- The constant `apiPath = "/api"` local to `NewClient`. -/
def apiPath : String := "/api"

/-- The base-URL normalisation performed by `NewClient` before
`url.Parse`: trim one trailing `/`, then append `/api` unless the
string already ends with it. -/
def resolveBaseURL (baseURL : String) : String :=
  if goHasSuffix (goTrimSuffix baseURL "/") apiPath then goTrimSuffix baseURL "/"
  else goTrimSuffix baseURL "/" ++ apiPath

/-- Model of `NewClient(baseURL, defaultNamespace, httpClient, token)`.
`url.Parse` is the parameter `parseURL` (`none` = parse error).  The
`httpClient` argument only chooses the transport, which is a
parameter of `doExec`, so it does not appear here. -/
def NewClient (parseURL : String → Option URL)
    (baseURL defaultNamespace token : String) : Except GoError Client :=
  match parseURL (resolveBaseURL baseURL) with
  | none => Except.error (GoError.invalidURL (resolveBaseURL baseURL))
  | some u =>
      Except.ok (Client.mk (some u) userAgent
        (if defaultNamespace = "" then DefaultNamespaceName else defaultNamespace) token)

/-- An `http.Request` as the source populates it: method, the
resolved URL string, the headers set through `Header.Set`, the
optional JSON payload written into the body buffer, and the attached
context (an abstract token, set by `WithContext`). -/
structure Request where
  method : String
  url : String
  headers : List (String × String)
  body : Option String
  ctx : Option Nat
deriving Repr, DecidableEq

/-- `Header.Get`: first value stored for the key (keys used by the
source are already in canonical form and pairwise distinct). -/
def getHeader (req : Request) (key : String) : Option String :=
  (req.headers.find? (fun p => p.1 == key)).map Prod.snd

/-- The URL-resolution step of `newRequest` (lines 89–95 of the
source): with a configured base URL, the target path is joined onto
the base path and the result is resolved against the base URL;
without one, the parsed target's own `String()` rendering is
used. -/
def resolveRequestURL (joinPath : String → String → String)
    (resolveRef : URL → URL → String) (base : Option URL) (u : URL) : String :=
  match base with
  | some b => resolveRef b (URL.mk (joinPath b.path u.path) u.render)
  | none => u.render

/-- The header block set by `newRequest` through `Header.Set`
(lines 112–123 of the source): `Content-Type: application/json`
when a body is present, `Accept: application/json` always,
`User-Agent` when the client's user agent is non-empty, and
`Authorization: Bearer <token>` when the token is non-empty. -/
def requestHeaders (hasBody : Bool) (ua tok : String) : List (String × String) :=
  ((if hasBody then [("Content-Type", contentTypeJSON)] else []) ++
    [("Accept", contentTypeJSON)]) ++
    ((if ua = "" then [] else [("User-Agent", ua)]) ++
      (if tok = "" then [] else [("Authorization", "Bearer " ++ tok)]))

/-- Model of `Client.newRequest(method, urlStr, body)`.
`parseURL` embeds `url.Parse`, `joinPath` embeds `url.JoinPath`,
`resolveRef base u` embeds `base.ResolveReference(u).String()`, and
`marshal` embeds JSON marshalling of the body value (`none` =
serialization error); `json.Encoder.Encode` appends a newline to the
marshalled value.  `http.NewRequest` is modelled as storing the
method, the resolved URL string and the payload. -/
def newRequest {B : Type} (parseURL : String → Option URL)
    (joinPath : String → String → String)
    (resolveRef : URL → URL → String)
    (marshal : B → Option String)
    (c : Client) (method urlStr : String) (body : Option B) :
    Except GoError Request :=
  match parseURL urlStr with
  | none => Except.error (GoError.invalidURL urlStr)
  | some u =>
    match body with
    | none =>
      Except.ok (Request.mk method (resolveRequestURL joinPath resolveRef c.baseURL u)
        (requestHeaders false c.userAgent c.token) none none)
    | some b =>
      match marshal b with
      | none => Except.error GoError.serializationError
      | some j =>
        Except.ok (Request.mk method (resolveRequestURL joinPath resolveRef c.baseURL u)
          (requestHeaders true c.userAgent c.token) (some (j ++ "\n")) none)

/-- An `http.Response` as the source reads it: status code, headers
and the body.  The body string stands for the JSON content of the
response body; a body the decoder finds no JSON value in (empty
stream) is the empty string. -/
structure Response where
  statusCode : Nat
  headers : List (String × String)
  body : String
deriving Repr, DecidableEq

/-- Model of `json.NewDecoder(resp.Body).Decode(v)` for a
destination of pointee type `V`: an empty body yields `io.EOF`
before the destination is inspected; a non-empty body that `parse`
rejects yields a decode error; a non-empty body with a nil
destination yields `InvalidUnmarshalError`; otherwise the decoded
value is stored in the destination.  Returns the updated destination
together with the error. -/
def jsonDecode {V : Type} (parse : String → Option V) (body : String)
    (dest : Option V) : Option V × Option GoError :=
  if body = "" then (dest, some GoError.eofError)
  else
    match parse body, dest with
    | none, _ => (dest, some GoError.decodeError)
    | some _, none => (dest, some GoError.invalidUnmarshal)
    | some val, some _ => (some val, none)

/-- Model of `Client.do(ctx, req, v)` (`do` is a Lean keyword).  The
context is attached to the request, the transport call is performed
(`transport` embeds `c.client.Do`; its failure is returned as a
transport error together with a nil response), then the body is
JSON-decoded into the destination and `io.EOF` is mapped to no
error.  Returns the response, the updated destination and the
error. -/
def doExec {V : Type} (transport : Request → Except String Response)
    (parse : String → Option V) (ctx : Nat) (req : Request) (v : Option V) :
    Option Response × Option V × Option GoError :=
  match transport (Request.mk req.method req.url req.headers req.body (some ctx)) with
  | Except.error msg => (none, v, some (GoError.transportError msg))
  | Except.ok resp =>
    let dec := jsonDecode parse resp.body v
    let decErr := if dec.2 = some GoError.eofError then none else dec.2
    (some resp, dec.1, decErr)

example : resolveBaseURL "http://localhost:7007/api/" = "http://localhost:7007/api" := by decide

example : resolveBaseURL "http://localhost:7007" = "http://localhost:7007/api" := by decide

example : goHasSuffix "http://x//api" "/" = false := by decide

theorem chPre_append (l t : List Char) : chPre l (l ++ t) = true := by
  induction l with
  | nil => simp [chPre]
  | cons a as ih => simp [chPre, ih]

theorem data_append (s t : String) : (s ++ t).data = s.data ++ t.data := by
  cases s; cases t; rfl

theorem chPre_api_slash (r : List Char)
    (h : chPre ['i', 'p', 'a', '/'] r = true) : chPre ['/'] r = false := by
  cases r with
  | nil => exact absurd h (by decide)
  | cons c r' =>
    simp only [chPre, Bool.and_eq_true, beq_iff_eq] at h
    obtain ⟨hc, -⟩ := h
    subst hc
    rfl

theorem goHasSuffix_api_data (b : String) :
    goHasSuffix b apiPath = chPre ['i', 'p', 'a', '/'] b.data.reverse := rfl

theorem goHasSuffix_slash_data (b : String) :
    goHasSuffix b "/" = chPre ['/'] b.data.reverse := rfl

theorem append_api_reverse (b : String) :
    (b ++ apiPath).data.reverse = ['i', 'p', 'a', '/'] ++ b.data.reverse := by
  rw [data_append, List.reverse_append]
  rfl

theorem resolveBaseURL_eq_pos (s : String)
    (h : goHasSuffix (goTrimSuffix s "/") apiPath = true) :
    resolveBaseURL s = goTrimSuffix s "/" := by
  unfold resolveBaseURL
  rw [h]
  simp

theorem resolveBaseURL_eq_neg (s : String)
    (h : goHasSuffix (goTrimSuffix s "/") apiPath = false) :
    resolveBaseURL s = goTrimSuffix s "/" ++ apiPath := by
  unfold resolveBaseURL
  rw [h]
  simp

theorem resolveBaseURL_api (s : String) :
    goHasSuffix (resolveBaseURL s) apiPath = true := by
  cases h : goHasSuffix (goTrimSuffix s "/") apiPath with
  | true => rw [resolveBaseURL_eq_pos s h]; exact h
  | false =>
    rw [resolveBaseURL_eq_neg s h, goHasSuffix_api_data, append_api_reverse]
    exact chPre_append _ _

theorem resolveBaseURL_noSlash (s : String) :
    goHasSuffix (resolveBaseURL s) "/" = false := by
  cases h : goHasSuffix (goTrimSuffix s "/") apiPath with
  | true =>
    rw [resolveBaseURL_eq_pos s h, goHasSuffix_slash_data]
    exact chPre_api_slash _ h
  | false =>
    rw [resolveBaseURL_eq_neg s h, goHasSuffix_slash_data, append_api_reverse]
    exact chPre_api_slash _ (chPre_append _ _)

/-- C2: for every base URL string accepted by `NewClient` (with or
without a trailing slash), the stored base URL never ends with `/`
and always ends with the fixed API path segment `/api`.  The
hypothesis `hparse` is the `url.Parse`/`String()` round-trip
contract for the accepted input. -/
theorem newClient_baseURL_suffix (parseURL : String → Option URL)
    (baseURL ns tok : String) (c : Client) (u : URL)
    (hparse : ∀ s w, parseURL s = some w → w.render = s)
    (h : NewClient parseURL baseURL ns tok = Except.ok c)
    (hu : c.baseURL = some u) :
    goHasSuffix u.render apiPath = true ∧ goHasSuffix u.render "/" = false := by
  unfold NewClient at h
  cases hp : parseURL (resolveBaseURL baseURL) with
  | none => rw [hp] at h; exact Except.noConfusion h
  | some w =>
    rw [hp] at h
    injection h with h1
    subst h1
    injection hu with h2
    subst h2
    constructor
    · rw [hparse _ _ hp]
      exact resolveBaseURL_api baseURL
    · rw [hparse _ _ hp]
      exact resolveBaseURL_noSlash baseURL

/-- Witness for C2 at a concrete base URL with a trailing slash. -/
theorem newClient_baseURL_suffix_witness :
    goHasSuffix (URL.mk "" "http://localhost:7007/api").render apiPath = true ∧
      goHasSuffix (URL.mk "" "http://localhost:7007/api").render "/" = false :=
  newClient_baseURL_suffix (fun s => some (URL.mk "" s)) "http://localhost:7007/" "" ""
    (Client.mk (some (URL.mk "" "http://localhost:7007/api")) userAgent DefaultNamespaceName "")
    (URL.mk "" "http://localhost:7007/api")
    (fun _ _ h => by injection h with h1; subst h1; rfl)
    rfl rfl

/-- C6: if the supplied namespace is empty the client's default
namespace is the constant `"default"`; a non-empty supplied
namespace is stored verbatim; hence the default namespace is never
empty after construction. -/
theorem newClient_namespace (parseURL : String → Option URL)
    (baseURL ns tok : String) (c : Client)
    (h : NewClient parseURL baseURL ns tok = Except.ok c) :
    (ns = "" → c.defaultNamespace = "default") ∧
    (ns ≠ "" → c.defaultNamespace = ns) ∧ c.defaultNamespace ≠ "" := by
  unfold NewClient at h
  cases hp : parseURL (resolveBaseURL baseURL) with
  | none => rw [hp] at h; exact Except.noConfusion h
  | some u =>
    rw [hp] at h
    injection h with h1
    subst h1
    by_cases hns : ns = ""
    · subst hns
      exact ⟨fun _ => by simp [DefaultNamespaceName],
        fun hc => absurd rfl hc, by simp [DefaultNamespaceName]⟩
    · exact ⟨fun hc => absurd hc hns, fun _ => by simp [hns], by simp [hns]⟩

/-- Witness for C6 at a concrete non-empty namespace. -/
theorem newClient_namespace_witness :
    ("custom" = "" → (Client.mk (some (URL.mk "" "http://x/api"))
        userAgent "custom" "").defaultNamespace = "default") ∧
    ("custom" ≠ "" → (Client.mk (some (URL.mk "" "http://x/api"))
        userAgent "custom" "").defaultNamespace = "custom") ∧
    (Client.mk (some (URL.mk "" "http://x/api"))
        userAgent "custom" "").defaultNamespace ≠ "" :=
  newClient_namespace (fun s => some (URL.mk "" s)) "http://x" "custom" ""
    (Client.mk (some (URL.mk "" "http://x/api")) userAgent "custom" "")
    rfl

/-- C7: when the normalised base URL (after trailing-slash trimming
and API-segment appending) fails to parse, `NewClient` returns an
`invalidURL` error and no client. -/
theorem newClient_invalidURL (parseURL : String → Option URL)
    (baseURL ns tok : String)
    (h : parseURL (resolveBaseURL baseURL) = none) :
    NewClient parseURL baseURL ns tok =
      Except.error (GoError.invalidURL (resolveBaseURL baseURL)) := by
  unfold NewClient
  rw [h]

/-- Witness for C7 with a parse function rejecting every input. -/
theorem newClient_invalidURL_witness :
    NewClient (fun _ => none) "http://x" "" "" =
      Except.error (GoError.invalidURL (resolveBaseURL "http://x")) :=
  newClient_invalidURL (fun _ => none) "http://x" "" "" rfl

theorem find_content_type (hb : Bool) (ua tok : String) :
    (requestHeaders hb ua tok).find? (fun p => p.1 == "Content-Type") =
      if hb then some ("Content-Type", contentTypeJSON) else none := by
  cases hb <;> by_cases hua : ua = "" <;> by_cases htok : tok = "" <;>
    simp [requestHeaders, hua, htok, List.find?]

theorem find_accept (hb : Bool) (ua tok : String) :
    (requestHeaders hb ua tok).find? (fun p => p.1 == "Accept") =
      some ("Accept", contentTypeJSON) := by
  cases hb <;> by_cases hua : ua = "" <;> by_cases htok : tok = "" <;>
    simp [requestHeaders, hua, htok, List.find?]

theorem find_user_agent (hb : Bool) (ua tok : String) :
    (requestHeaders hb ua tok).find? (fun p => p.1 == "User-Agent") =
      if ua = "" then none else some ("User-Agent", ua) := by
  cases hb <;> by_cases hua : ua = "" <;> by_cases htok : tok = "" <;>
    simp [requestHeaders, hua, htok, List.find?]

theorem find_authorization (hb : Bool) (ua tok : String) :
    (requestHeaders hb ua tok).find? (fun p => p.1 == "Authorization") =
      if tok = "" then none else some ("Authorization", "Bearer " ++ tok) := by
  cases hb <;> by_cases hua : ua = "" <;> by_cases htok : tok = "" <;>
    simp [requestHeaders, hua, htok, List.find?]

theorem getHeader_content_type (m u2 : String) (pl : Option String)
    (cx : Option Nat) (hb : Bool) (ua tok : String) :
    getHeader (Request.mk m u2 (requestHeaders hb ua tok) pl cx) "Content-Type" =
      if hb then some contentTypeJSON else none := by
  unfold getHeader
  rw [show (Request.mk m u2 (requestHeaders hb ua tok) pl cx).headers =
    requestHeaders hb ua tok from rfl, find_content_type]
  cases hb <;> simp

theorem getHeader_accept (m u2 : String) (pl : Option String)
    (cx : Option Nat) (hb : Bool) (ua tok : String) :
    getHeader (Request.mk m u2 (requestHeaders hb ua tok) pl cx) "Accept" =
      some contentTypeJSON := by
  unfold getHeader
  rw [show (Request.mk m u2 (requestHeaders hb ua tok) pl cx).headers =
    requestHeaders hb ua tok from rfl, find_accept]
  rfl

theorem getHeader_user_agent (m u2 : String) (pl : Option String)
    (cx : Option Nat) (hb : Bool) (ua tok : String) :
    getHeader (Request.mk m u2 (requestHeaders hb ua tok) pl cx) "User-Agent" =
      if ua = "" then none else some ua := by
  unfold getHeader
  rw [show (Request.mk m u2 (requestHeaders hb ua tok) pl cx).headers =
    requestHeaders hb ua tok from rfl, find_user_agent]
  by_cases hua : ua = "" <;> simp [hua]

theorem getHeader_authorization (m u2 : String) (pl : Option String)
    (cx : Option Nat) (hb : Bool) (ua tok : String) :
    getHeader (Request.mk m u2 (requestHeaders hb ua tok) pl cx) "Authorization" =
      if tok = "" then none else some ("Bearer " ++ tok) := by
  unfold getHeader
  rw [show (Request.mk m u2 (requestHeaders hb ua tok) pl cx).headers =
    requestHeaders hb ua tok from rfl, find_authorization]
  by_cases htok : tok = "" <;> simp [htok]

/-- C4: a request built with a JSON-serializable body carries the
marshalled body followed by the encoder's newline as its payload and
has both `Content-Type` and `Accept` equal to `application/json`; a
request built with a nil body has no `Content-Type` header but still
`Accept: application/json`. -/
theorem newRequest_body_and_content_type {B : Type} (parseURL : String → Option URL)
    (joinPath : String → String → String) (resolveRef : URL → URL → String)
    (marshal : B → Option String) (c : Client) (method urlStr : String) :
    (∀ b j req, marshal b = some j →
      newRequest parseURL joinPath resolveRef marshal c method urlStr (some b) =
        Except.ok req →
      req.body = some (j ++ "\n") ∧
      getHeader req "Content-Type" = some contentTypeJSON ∧
      getHeader req "Accept" = some contentTypeJSON) ∧
    (∀ req, newRequest parseURL joinPath resolveRef marshal c method urlStr
        (none : Option B) = Except.ok req →
      req.body = none ∧
      getHeader req "Content-Type" = none ∧
      getHeader req "Accept" = some contentTypeJSON) := by
  constructor
  · intro b j req hm hreq
    cases hp : parseURL urlStr with
    | none =>
      simp only [newRequest, hp] at hreq
      exact Except.noConfusion hreq
    | some u =>
      simp only [newRequest, hp, hm] at hreq
      injection hreq with h1
      subst h1
      refine ⟨rfl, ?_, ?_⟩
      · rw [getHeader_content_type]
        rfl
      · rw [getHeader_accept]
  · intro req hreq
    cases hp : parseURL urlStr with
    | none =>
      simp only [newRequest, hp] at hreq
      exact Except.noConfusion hreq
    | some u =>
      simp only [newRequest, hp] at hreq
      injection hreq with h1
      subst h1
      refine ⟨rfl, ?_, ?_⟩
      · rw [getHeader_content_type]
        rfl
      · rw [getHeader_accept]

/-- Witness for C4 at a concrete body and client. -/
theorem newRequest_body_and_content_type_witness :
    (Request.mk "POST" "/p" (requestHeaders true "go-backstage" "")
        (some ("1" ++ "\n")) none).body = some ("1" ++ "\n") ∧
    getHeader (Request.mk "POST" "/p" (requestHeaders true "go-backstage" "")
        (some ("1" ++ "\n")) none) "Content-Type" = some contentTypeJSON ∧
    getHeader (Request.mk "POST" "/p" (requestHeaders true "go-backstage" "")
        (some ("1" ++ "\n")) none) "Accept" = some contentTypeJSON :=
  (newRequest_body_and_content_type (fun s => some (URL.mk s s)) (fun a b => a ++ b)
      (fun _ w => w.render) (fun _ : Unit => some "1")
      (Client.mk none "go-backstage" "default" "") "POST" "/p").1
    () "1" (Request.mk "POST" "/p" (requestHeaders true "go-backstage" "")
      (some ("1" ++ "\n")) none) rfl rfl

/-- C8: the `User-Agent` header is present with the client's user
agent exactly when that field is non-empty, and the `Authorization`
header is present with value `"Bearer " ++ token` exactly when the
token is non-empty. -/
theorem newRequest_user_agent_authorization {B : Type}
    (parseURL : String → Option URL) (joinPath : String → String → String)
    (resolveRef : URL → URL → String) (marshal : B → Option String)
    (c : Client) (method urlStr : String) (body : Option B) (req : Request)
    (hreq : newRequest parseURL joinPath resolveRef marshal c method urlStr body =
      Except.ok req) :
    getHeader req "User-Agent" = (if c.userAgent = "" then none else some c.userAgent) ∧
    getHeader req "Authorization" =
      (if c.token = "" then none else some ("Bearer " ++ c.token)) := by
  cases hp : parseURL urlStr with
  | none =>
    simp only [newRequest, hp] at hreq
    exact Except.noConfusion hreq
  | some u =>
    cases body with
    | none =>
      simp only [newRequest, hp] at hreq
      injection hreq with h1
      subst h1
      exact ⟨getHeader_user_agent .., getHeader_authorization ..⟩
    | some b =>
      cases hm : marshal b with
      | none =>
        simp only [newRequest, hp, hm] at hreq
        exact Except.noConfusion hreq
      | some j =>
        simp only [newRequest, hp, hm] at hreq
        injection hreq with h1
        subst h1
        exact ⟨getHeader_user_agent .., getHeader_authorization ..⟩

/-- Witness for C8 at a concrete client with user agent and token. -/
theorem newRequest_user_agent_authorization_witness :
    getHeader (Request.mk "GET" "/p" (requestHeaders false "go-backstage" "t")
        none none) "User-Agent" =
      (if ("go-backstage" : String) = "" then none else some "go-backstage") ∧
    getHeader (Request.mk "GET" "/p" (requestHeaders false "go-backstage" "t")
        none none) "Authorization" =
      (if ("t" : String) = "" then none else some ("Bearer " ++ "t")) :=
  newRequest_user_agent_authorization (fun s => some (URL.mk s s)) (fun a b => a ++ b)
    (fun _ w => w.render) (fun _ : Unit => some "1")
    (Client.mk none "go-backstage" "default" "t") "GET" "/p" none
    (Request.mk "GET" "/p" (requestHeaders false "go-backstage" "t") none none) rfl

/-- C5: a malformed path fails with `invalidURL`; with a configured
base URL the request URL is the join of the base path and the target
path resolved against the base URL; with no base URL the path is
used as-is (under the `url.Parse`/`String()` round-trip contract
`hparse`). -/
theorem newRequest_url_resolution {B : Type} (parseURL : String → Option URL)
    (joinPath : String → String → String) (resolveRef : URL → URL → String)
    (marshal : B → Option String) (c : Client) (method urlStr : String)
    (body : Option B)
    (hparse : ∀ s w, parseURL s = some w → w.render = s) :
    (parseURL urlStr = none →
      newRequest parseURL joinPath resolveRef marshal c method urlStr body =
        Except.error (GoError.invalidURL urlStr)) ∧
    (∀ u base req, parseURL urlStr = some u → c.baseURL = some base →
      newRequest parseURL joinPath resolveRef marshal c method urlStr body =
        Except.ok req →
      req.url = resolveRef base (URL.mk (joinPath base.path u.path) u.render)) ∧
    (∀ u req, parseURL urlStr = some u → c.baseURL = none →
      newRequest parseURL joinPath resolveRef marshal c method urlStr body =
        Except.ok req →
      req.url = urlStr) := by
  refine ⟨?_, ?_, ?_⟩
  · intro hp
    unfold newRequest
    rw [hp]
  · intro u base req hp hbase hreq
    cases body with
    | none =>
      simp only [newRequest, hp] at hreq
      injection hreq with h1
      subst h1
      show resolveRequestURL joinPath resolveRef c.baseURL u = _
      rw [hbase]
      rfl
    | some b =>
      cases hm : marshal b with
      | none =>
        simp only [newRequest, hp, hm] at hreq
        exact Except.noConfusion hreq
      | some j =>
        simp only [newRequest, hp, hm] at hreq
        injection hreq with h1
        subst h1
        show resolveRequestURL joinPath resolveRef c.baseURL u = _
        rw [hbase]
        rfl
  · intro u req hp hbase hreq
    cases body with
    | none =>
      simp only [newRequest, hp] at hreq
      injection hreq with h1
      subst h1
      show resolveRequestURL joinPath resolveRef c.baseURL u = _
      rw [hbase]
      exact hparse _ _ hp
    | some b =>
      cases hm : marshal b with
      | none =>
        simp only [newRequest, hp, hm] at hreq
        exact Except.noConfusion hreq
      | some j =>
        simp only [newRequest, hp, hm] at hreq
        injection hreq with h1
        subst h1
        show resolveRequestURL joinPath resolveRef c.baseURL u = _
        rw [hbase]
        exact hparse _ _ hp

/-- Witness for C5: the base-URL case at concrete join and resolve
functions (join concatenates paths, resolve renders the path). -/
theorem newRequest_url_resolution_witness :
    (Request.mk "GET" "/api/p"
        (requestHeaders false "" "") none none).url =
      (fun _ w => w.path : URL → URL → String) (URL.mk "/api" "http://x/api")
        (URL.mk ((fun a b => a ++ b : String → String → String) "/api" "/p") "/p") :=
  (newRequest_url_resolution (fun s => some (URL.mk s s)) (fun a b => a ++ b)
      (fun _ w => w.path) (fun _ : Unit => some "1")
      (Client.mk (some (URL.mk "/api" "http://x/api")) "" "" "") "GET" "/p" none
      (fun _ _ h => by injection h with h1; subst h1; rfl)).2.1
    (URL.mk "/p" "/p") (URL.mk "/api" "http://x/api")
    (Request.mk "GET" "/api/p" (requestHeaders false "" "") none none)
    rfl rfl rfl

/-- C3: executing a request whose response has status 200 and an
empty body returns no error and leaves the caller-supplied
destination unchanged. -/
theorem do_empty_body_noop {V : Type} (transport : Request → Except String Response)
    (parse : String → Option V) (ctx : Nat) (req : Request) (resp : Response)
    (v : Option V)
    (h : transport (Request.mk req.method req.url req.headers req.body (some ctx)) =
      Except.ok resp)
    (_h200 : resp.statusCode = 200) (hbody : resp.body = "") :
    doExec transport parse ctx req v = (some resp, v, none) := by
  simp [doExec, h, jsonDecode, hbody]

/-- Witness for C3 at a concrete 200/empty-body response. -/
theorem do_empty_body_noop_witness :
    doExec (fun _ => Except.ok (Response.mk 200 [] "")) (fun _ => some (0 : Nat)) 0
        (Request.mk "GET" "/p" [] none none) (some 7) =
      (some (Response.mk 200 [] ""), some 7, none) :=
  do_empty_body_noop (fun _ => Except.ok (Response.mk 200 [] "")) (fun _ => some 0) 0
    (Request.mk "GET" "/p" [] none none) (Response.mk 200 [] "") (some 7) rfl rfl rfl

/-- C9: a transport failure surfaces as a transport error (with a
nil response), and a transport success returns the raw response
alongside the decode outcome. -/
theorem do_transport_outcomes {V : Type} (transport : Request → Except String Response)
    (parse : String → Option V) (ctx : Nat) (req : Request) (v : Option V) :
    (∀ msg, transport (Request.mk req.method req.url req.headers req.body (some ctx)) =
        Except.error msg →
      (doExec transport parse ctx req v).2.2 = some (GoError.transportError msg) ∧
      (doExec transport parse ctx req v).1 = none) ∧
    (∀ resp, transport (Request.mk req.method req.url req.headers req.body (some ctx)) =
        Except.ok resp →
      (doExec transport parse ctx req v).1 = some resp) := by
  constructor
  · intro msg hmsg
    simp [doExec, hmsg]
  · intro resp hresp
    simp [doExec, hresp]

/-- Witness for C9 at a concrete failing transport. -/
theorem do_transport_outcomes_witness :
    (doExec (fun _ => Except.error "refused") (fun _ => some (0 : Nat)) 0
        (Request.mk "GET" "/p" [] none none) (some 3)).2.2 =
      some (GoError.transportError "refused") ∧
    (doExec (fun _ => Except.error "refused") (fun _ => some (0 : Nat)) 0
        (Request.mk "GET" "/p" [] none none) (some 3)).1 = none :=
  (do_transport_outcomes (fun _ => Except.error "refused") (fun _ => some 0) 0
    (Request.mk "GET" "/p" [] none none) (some 3)).1 "refused" rfl

/-- C10: when the transport call fails, `do` returns a nil response
together with the error and the destination is left unchanged. -/
theorem do_transport_failure {V : Type} (transport : Request → Except String Response)
    (parse : String → Option V) (ctx : Nat) (req : Request) (v : Option V)
    (msg : String)
    (h : transport (Request.mk req.method req.url req.headers req.body (some ctx)) =
      Except.error msg) :
    doExec transport parse ctx req v = (none, v, some (GoError.transportError msg)) := by
  simp [doExec, h]

/-- Witness for C10 at a concrete failing transport. -/
theorem do_transport_failure_witness :
    doExec (fun _ => Except.error "timeout") (fun _ => some (0 : Nat)) 0
        (Request.mk "GET" "/p" [] none none) (some 3) =
      (none, some 3, some (GoError.transportError "timeout")) :=
  do_transport_failure (fun _ => Except.error "timeout") (fun _ => some 0) 0
    (Request.mk "GET" "/p" [] none none) (some 3) "timeout" rfl

/-- C1 counterexample: a successful transport call returning the
valid non-empty JSON body `"1"` with no destination provided makes
`do` return a decode error (`InvalidUnmarshalError`), refuting the
claim that no decode error is returned when no destination is
provided. -/
theorem do_nil_destination_counterexample :
    (doExec (fun _ => Except.ok (Response.mk 200 [] "1"))
        (fun s => if s = "1" then some () else none) 0
        (Request.mk "GET" "/p" [] none none) (none : Option Unit)).2.2 =
      some GoError.invalidUnmarshal := by
  rfl

/-- C1 (amended): for every execution whose transport call succeeds:
with a destination provided, the decode of the body succeeds exactly
when the body is empty or valid JSON for the destination (a
non-empty malformed body yields a decode error); an empty body is a
successful no-op decode leaving the destination unchanged; with no
destination provided, the decoder is still invoked and an error is
returned exactly when the body is non-empty. -/
theorem do_decode_outcome {V : Type} (transport : Request → Except String Response)
    (parse : String → Option V) (ctx : Nat) (req : Request) (resp : Response)
    (v : Option V)
    (h : transport (Request.mk req.method req.url req.headers req.body (some ctx)) =
      Except.ok resp) :
    (v.isSome = true →
      ((doExec transport parse ctx req v).2.2 = none ↔
        (resp.body = "" ∨ (parse resp.body).isSome = true))) ∧
    (resp.body = "" →
      (doExec transport parse ctx req v).2.2 = none ∧
      (doExec transport parse ctx req v).2.1 = v) ∧
    (v = none →
      ((doExec transport parse ctx req v).2.2 = none ↔ resp.body = "")) := by
  by_cases hb : resp.body = ""
  · simp [doExec, h, jsonDecode, hb]
  · cases hp : parse resp.body with
    | none =>
      cases v with
      | none => simp [doExec, h, jsonDecode, hb, hp]
      | some d => simp [doExec, h, jsonDecode, hb, hp]
    | some val =>
      cases v with
      | none => simp [doExec, h, jsonDecode, hb, hp]
      | some d => simp [doExec, h, jsonDecode, hb, hp]

/-- Witness for the amended C1 at a concrete empty-body response
with a destination provided. -/
theorem do_decode_outcome_witness :
    (doExec (fun _ => Except.ok (Response.mk 200 [] "")) (fun _ => some (0 : Nat)) 0
        (Request.mk "GET" "/p" [] none none) (some 5)).2.2 = none ∧
    (doExec (fun _ => Except.ok (Response.mk 200 [] "")) (fun _ => some (0 : Nat)) 0
        (Request.mk "GET" "/p" [] none none) (some 5)).2.1 = some 5 :=
  (do_decode_outcome (fun _ => Except.ok (Response.mk 200 [] "")) (fun _ => some 0) 0
    (Request.mk "GET" "/p" [] none none) (Response.mk 200 [] "") (some 5) rfl).2.1 rfl

end Backstage
